import Mathlib

/-!
Verification development for the stand-and-hold pose-coaching server
(`stand_hold_server.py`).  The Python source is shallowly embedded:
NumPy float arrays become functions into `ℝ`, NaN-able scalars become
`Option ℝ`, and the per-connection asynchronous session loop becomes an
explicit state-transition function.  Definitions follow the Python
source line by line; the external SVD routine (`np.linalg.svd`) is the
only abstracted primitive (it is threaded through as a parameter).
-/

open Classical

noncomputable section

namespace StandHold

/-- A 3-component point (row of a `(33,3)` NumPy array). -/
abbrev Pt3 : Type := Fin 3 → ℝ

/-- A full 33-landmark point array, `(33,3)` in the source. -/
abbrev Points33 : Type := Fin 33 → Pt3

/-- A 33-entry scalar array (visibility or presence). -/
abbrev Arr33 : Type := Fin 33 → ℝ

/-- Euclidean norm of a 3-vector (`np.linalg.norm` on a length-3 row). -/
def norm3 (v : Pt3) : ℝ := Real.sqrt (v 0 ^ 2 + v 1 ^ 2 + v 2 ^ 2)

/-- `LEFT_RIGHT_SWAP_PAIRS` from the source. -/
def LEFT_RIGHT_SWAP_PAIRS : List (Fin 33 × Fin 33) :=
  [(1, 4), (2, 5), (3, 6), (7, 8), (9, 10), (11, 12), (13, 14), (15, 16),
   (17, 18), (19, 20), (21, 22), (23, 24), (25, 26), (27, 28), (29, 30), (31, 32)]

/-- `swap_left_right`: copies the input and, for every swap pair, writes the
right value at the left index and vice versa, always reading from the
original array. -/
def swap_left_right {α : Type} (values : Fin 33 → α) : Fin 33 → α :=
  LEFT_RIGHT_SWAP_PAIRS.foldl
    (fun out pr =>
      Function.update (Function.update out pr.1 (values pr.2)) pr.2 (values pr.1))
    values

/-- `mirror_and_swap_points`: negate the x coordinate of every landmark and
apply the left/right swap. -/
def mirror_and_swap_points (points : Points33) : Points33 :=
  swap_left_right (fun j a => if a = 0 then -(points j a) else points j a)

/-- The permutation on landmark indices realised by `swap_left_right`. -/
def swapIdx : Fin 33 → Fin 33 :=
  swap_left_right (fun i => i)

lemma swap_left_right_apply {α : Type} (values : Fin 33 → α) (i : Fin 33) :
    swap_left_right values i = values (swapIdx i) := by
  fin_cases i <;> rfl

lemma swapIdx_involutive (i : Fin 33) : swapIdx (swapIdx i) = i := by
  fin_cases i <;> rfl

/-- `wrapped_angle_diff` from the source: `min(|a-b|, 360-|a-b|)`. -/
def wrapped_angle_diff (a b : ℝ) : ℝ :=
  min |a - b| (360 - |a - b|)

/-- The fallback bone pairs of `center_and_scale` (arm segments, leg
segments, hip-hip, shoulder-shoulder). -/
def FALLBACK_PAIRS : List (Fin 33 × Fin 33) :=
  [(11, 13), (13, 15), (12, 14), (14, 16),
   (23, 25), (25, 27), (24, 26), (26, 28),
   (23, 24), (11, 12)]

/-- `center_and_scale`: translate by the hip midpoint, divide by the torso
length, substituting the mean of available fallback bone lengths (default
1.0) when the torso is degenerate. -/
def center_and_scale (points_33 : Points33) : Points33 :=
  let hip_mid : Pt3 := fun a => (points_33 23 a + points_33 24 a) / 2
  let shoulder_mid : Pt3 := fun a => (points_33 11 a + points_33 12 a) / 2
  let centered : Points33 := fun j a => points_33 j a - hip_mid a
  let torso_len0 : ℝ := norm3 (fun a => shoulder_mid a - hip_mid a)
  let torso_len1 : ℝ :=
    if torso_len0 < 1e-6 then
      let lengths : List ℝ :=
        (FALLBACK_PAIRS.map
          (fun pr => norm3 (fun a => points_33 pr.1 a - points_33 pr.2 a))).foldr
          (fun l acc => if 1e-6 < l then l :: acc else acc) []
      if lengths = [] then 1.0 else lengths.sum / (lengths.length : ℝ)
    else torso_len0
  let torso_len : ℝ := if torso_len1 < 1e-6 then 1.0 else torso_len1
  fun j a => centered j a / torso_len

/-- `np.clip(x, 0.0, 1.0)`. -/
def clip01 (x : ℝ) : ℝ := min (max x 0) 1

/-- A per-frame pose packet: 33 landmark points with visibility and
presence confidences. -/
structure PosePacket where
  points : Points33
  vis : Arr33
  pres : Arr33

/-- `POSE_SELECTED_INDICES` from the source: shoulders, elbows, wrists,
hips, knees, ankles, heels and foot indices. -/
def POSE_SELECTED_INDICES : Fin 16 → Fin 33 :=
  ![11, 12, 13, 14, 15, 16, 23, 24, 25, 26, 27, 28, 29, 30, 31, 32]

/-- `ANGLE_TRIPLETS` from the source. -/
def ANGLE_TRIPLETS : List (String × Fin 33 × Fin 33 × Fin 33) :=
  [("left_elbow", 11, 13, 15), ("right_elbow", 12, 14, 16),
   ("left_knee", 23, 25, 27), ("right_knee", 24, 26, 28),
   ("left_hip", 11, 23, 25), ("right_hip", 12, 24, 26),
   ("left_shoulder", 13, 11, 23), ("right_shoulder", 14, 12, 24)]

/-- `BONE_DEFS` from the source. -/
def BONE_DEFS : List (String × Fin 33 × Fin 33) :=
  [("left_upper_arm", 11, 13), ("right_upper_arm", 12, 14),
   ("left_forearm", 13, 15), ("right_forearm", 14, 16),
   ("left_thigh", 23, 25), ("right_thigh", 24, 26),
   ("left_shin", 25, 27), ("right_shin", 26, 28)]

/-- `ScoreConfig` tuning constants. -/
structure ScoreConfig where
  sigma_coord : ℝ
  sigma_angle : ℝ
  w_coord : ℝ
  w_angle : ℝ
  w_bone : ℝ
  conf_threshold : ℝ
  min_valid_joints : ℕ
  min_valid_angles : ℕ
  min_valid_bones : ℕ

/-- The default `ScoreConfig()` of the source. -/
def defaultConfig : ScoreConfig :=
  ⟨0.12, 15.0, 0.4, 0.4, 0.2, 0.5, 6, 2, 3⟩

/-- `ScoreResult`: `none` models Python `None` (and NaN-free floats
otherwise); `angle_diffs` keeps insertion order of the dict. -/
structure ScoreResult where
  final : Option ℝ
  coord_score : Option ℝ
  angle_score : Option ℝ
  bone_score : Option ℝ
  coord_err : Option ℝ
  angle_err : Option ℝ
  matched_joints : ℕ
  matched_angles : ℕ
  matched_bones : ℕ
  reliable : Bool
  mirror_used : Bool
  reason : String
  angle_diffs : List (String × ℝ)

/-- A 3x3 real matrix. -/
abbrev Mat3 : Type := Matrix (Fin 3) (Fin 3) ℝ

/-- The external SVD primitive (`np.linalg.svd` on the 3x3 cross-covariance):
returns `(U, singular values, V^T)`.  It is kept abstract; every theorem about
the scorer is quantified over it. -/
abbrev SvdFun : Type := Mat3 → Mat3 × (Fin 3 → ℝ) × Mat3

/-- `procrustes_align_numpy` on an `n`-point masked subset: weighted
similarity alignment of `cur` onto `ref`.  The error is `none` on the two
failure paths (fewer than 3 positively weighted rows, degenerate weight sum),
mirroring the `inf` error of the source; coordinates are reals, so the
finiteness masks of the source are vacuous. -/
def procrustes_align_numpy (svd : SvdFun) (n : ℕ)
    (ref cur : Fin n → Pt3) (weights : Fin n → ℝ) :
    (Fin n → Pt3) × Option ℝ × Mat3 × ℝ × Pt3 :=
  if n = 0 then (cur, none, 1, 1, fun _ => 0)
  else
    let w : Fin n → ℝ := fun i => max (weights i) 0
    let valid : Finset (Fin n) := Finset.univ.filter (fun i => 0 < w i)
    if valid.card < 3 then (cur, none, 1, 1, fun _ => 0)
    else
      let w_sum : ℝ := ∑ i ∈ valid, w i
      if w_sum ≤ 1e-12 then (cur, none, 1, 1, fun _ => 0)
      else
        let wv : Fin n → ℝ := fun i => w i / w_sum
        let mu_a : Pt3 := fun c => ∑ i ∈ valid, wv i * ref i c
        let mu_b : Pt3 := fun c => ∑ i ∈ valid, wv i * cur i c
        let xa : Fin n → Pt3 := fun i c => ref i c - mu_a c
        let xb : Fin n → Pt3 := fun i c => cur i c - mu_b c
        let hm : Mat3 := fun r c =>
          ∑ i ∈ valid, (xb i r * Real.sqrt (wv i)) * (xa i c * Real.sqrt (wv i))
        let res := svd hm
        let u := res.1
        let svals := res.2.1
        let vt := res.2.2
        let r0 : Mat3 := vt.transpose * u.transpose
        let vt2 : Mat3 :=
          if r0.det < 0 then Matrix.updateRow vt 2 (fun c => -(vt 2 c)) else vt
        let rm : Mat3 := vt2.transpose * u.transpose
        let denom : ℝ := ∑ i ∈ valid, wv i * (∑ c, xb i c ^ 2)
        let scale : ℝ := (∑ c, svals c) / max denom 1e-12
        let t : Pt3 := fun c => mu_a c - scale * (∑ r, mu_b r * rm r c)
        let aligned : Fin n → Pt3 := fun i c => scale * (∑ r, cur i r * rm r c) + t c
        let err : ℝ := ∑ i ∈ valid, wv i * norm3 (fun c => ref i c - aligned i c)
        (aligned, some err, rm, scale, t)

/-- `angle_deg`: the angle at `b` in degrees, `none` when either segment is
degenerate. -/
def angle_deg (a b c : Pt3) : Option ℝ :=
  let v1 : Pt3 := fun k => a k - b k
  let v2 : Pt3 := fun k => c k - b k
  let n1 := norm3 v1
  let n2 := norm3 v2
  if n1 < 1e-8 ∨ n2 < 1e-8 then none
  else
    let cosTheta := (v1 0 * v2 0 + v1 1 * v2 1 + v1 2 * v2 2) / (n1 * n2)
    some (Real.arccos (max (-1) (min cosTheta 1)) * 180 / Real.pi)

/-- `unit_vector`, `none` for near-zero vectors. -/
def unit_vector (v : Pt3) : Option Pt3 :=
  if norm3 v < 1e-8 then none else some (fun c => v c / norm3 v)

/-- `compute_angle_score`: weighted wrapped angle differences over the fixed
triplets; returns `(angle_err, angle_score, matched_angles, angle_diffs)`. -/
def compute_angle_score (ref_points cur_points : Points33)
    (joint_weights : Arr33) (conf_threshold sigma_angle : ℝ) :
    Option ℝ × Option ℝ × ℕ × List (String × ℝ) :=
  let entries : List (String × ℝ × ℝ) :=
    ANGLE_TRIPLETS.filterMap (fun tr =>
      let w := min (joint_weights tr.2.1) (min (joint_weights tr.2.2.1)
        (joint_weights tr.2.2.2))
      if w < conf_threshold then none
      else
        match angle_deg (ref_points tr.2.1) (ref_points tr.2.2.1)
            (ref_points tr.2.2.2),
          angle_deg (cur_points tr.2.1) (cur_points tr.2.2.1)
            (cur_points tr.2.2.2) with
        | some ra, some ca => some (tr.1, wrapped_angle_diff ra ca, w)
        | _, _ => none)
  if entries.isEmpty then (none, none, 0, [])
  else
    let wsum : ℝ := max (entries.map (fun e => e.2.2)).sum 1e-12
    let angle_err : ℝ := (entries.map (fun e => e.2.2 / wsum * e.2.1)).sum
    let angle_score : ℝ := Real.exp (-angle_err / max sigma_angle 1e-6)
    (some angle_err, some angle_score, entries.length,
      entries.map (fun e => (e.1, e.2.1)))

/-- `compute_bone_score`: weighted mean of bone-direction cosine
similarities mapped to `[0,1]`, including the derived torso bone. -/
def compute_bone_score (ref_points cur_points : Points33)
    (joint_weights : Arr33) (conf_threshold : ℝ) : Option ℝ × ℕ :=
  let boneEntries : List (ℝ × ℝ) :=
    BONE_DEFS.filterMap (fun bd =>
      let w := min (joint_weights bd.2.1) (joint_weights bd.2.2)
      if w < conf_threshold then none
      else
        match unit_vector (fun c => ref_points bd.2.2 c - ref_points bd.2.1 c),
          unit_vector (fun c => cur_points bd.2.2 c - cur_points bd.2.1 c) with
        | some ur, some uc =>
          let cosSim := max (-1) (min (ur 0 * uc 0 + ur 1 * uc 1 + ur 2 * uc 2) 1)
          some ((cosSim + 1) / 2, w)
        | _, _ => none)
  let torso_w := min (joint_weights 11) (min (joint_weights 12)
    (min (joint_weights 23) (joint_weights 24)))
  let torsoEntry : List (ℝ × ℝ) :=
    if conf_threshold ≤ torso_w then
      match unit_vector (fun c =>
          (ref_points 11 c + ref_points 12 c) / 2 -
            (ref_points 23 c + ref_points 24 c) / 2),
        unit_vector (fun c =>
          (cur_points 11 c + cur_points 12 c) / 2 -
            (cur_points 23 c + cur_points 24 c) / 2) with
      | some ur, some uc =>
        let cosT := max (-1) (min (ur 0 * uc 0 + ur 1 * uc 1 + ur 2 * uc 2) 1)
        [((cosT + 1) / 2, torso_w)]
      | _, _ => []
    else []
  let entries := boneEntries ++ torsoEntry
  if entries.isEmpty then (none, 0)
  else
    let wsum : ℝ := max (entries.map (fun e => e.2)).sum 1e-12
    (some ((entries.map (fun e => e.2 / wsum * e.1)).sum), entries.length)

/-- Combined joint weights of `_score_single`:
`clip(min(vis_ref, vis_cur) * min(pres_ref, pres_cur), 0, 1)`. -/
def joint_weights (ref cur : PosePacket) : Arr33 :=
  fun j => clip01 (min (ref.vis j) (cur.vis j) * min (ref.pres j) (cur.pres j))

/-- The selected joints whose combined weight reaches the confidence
threshold, in index order. -/
def valid_selected (cfg : ScoreConfig) (ref cur : PosePacket) : List (Fin 16) :=
  (List.finRange 16).filter
    (fun k => decide (cfg.conf_threshold ≤
      joint_weights ref cur (POSE_SELECTED_INDICES k)))

/-- `matched_joints` of the gating step. -/
def matched_joints_count (cfg : ScoreConfig) (ref cur : PosePacket) : ℕ :=
  (valid_selected cfg ref cur).length

/-- `PoseScorer._score_single`: gate on reliable joints, Procrustes-align
the valid subset, score coordinates, angles and bones, and enforce the
angle/bone floors. -/
def score_single (svd : SvdFun) (cfg : ScoreConfig) (ref cur : PosePacket) :
    ScoreResult :=
  let ref_norm := center_and_scale ref.points
  let cur_norm := center_and_scale cur.points
  let jw := joint_weights ref cur
  let vsel := valid_selected cfg ref cur
  let matched := matched_joints_count cfg ref cur
  if matched < cfg.min_valid_joints then
    ⟨none, none, none, none, none, none, matched, 0, 0, false, false,
      "Too few reliable joints.", []⟩
  else
    let pa := procrustes_align_numpy svd vsel.length
      (fun i => ref_norm (POSE_SELECTED_INDICES (vsel.get i)))
      (fun i => cur_norm (POSE_SELECTED_INDICES (vsel.get i)))
      (fun i => jw (POSE_SELECTED_INDICES (vsel.get i)))
    match pa.2.1 with
    | none =>
      ⟨none, none, none, none, none, none, matched, 0, 0, false, false,
        "Procrustes alignment failed.", []⟩
    | some coord_err =>
      let rot := pa.2.2.1
      let scale := pa.2.2.2.1
      let trans := pa.2.2.2.2
      let cur_aligned : Points33 :=
        fun j c => scale * (∑ r, cur_norm j r * rot r c) + trans c
      let coord_score := Real.exp (-coord_err / max cfg.sigma_coord 1e-6)
      let ang := compute_angle_score ref_norm cur_aligned jw
        cfg.conf_threshold cfg.sigma_angle
      let bon := compute_bone_score ref_norm cur_aligned jw cfg.conf_threshold
      match ang.2.1, bon.1 with
      | some angleScore, some boneScore =>
        if ang.2.2.1 < cfg.min_valid_angles ∨ bon.2 < cfg.min_valid_bones then
          ⟨none, some (coord_score * 100), some (angleScore * 100),
            some (boneScore * 100), some coord_err, ang.1, matched,
            ang.2.2.1, bon.2, false, false, "Pose not reliable.", ang.2.2.2⟩
        else
          let final0 := 100 * (cfg.w_coord * coord_score +
            cfg.w_angle * angleScore + cfg.w_bone * boneScore)
          ⟨some (min (max final0 0) 100), some (coord_score * 100),
            some (angleScore * 100), some (boneScore * 100), some coord_err,
            ang.1, matched, ang.2.2.1, bon.2, true, false, "", ang.2.2.2⟩
      | a?, b? =>
        ⟨none, some (coord_score * 100), Option.map (fun x => x * 100) a?,
          Option.map (fun x => x * 100) b?, some coord_err, ang.1, matched,
          ang.2.2.1, bon.2, false, false,
          "Insufficient reliable angles or bones.", ang.2.2.2⟩

/-- The mirror-swapped candidate built inside `PoseScorer.score`. -/
def mirrorPacket (p : PosePacket) : PosePacket :=
  ⟨mirror_and_swap_points p.points, swap_left_right p.vis, swap_left_right p.pres⟩

/-- `PoseScorer.score`: score the raw and the mirror-swapped candidate and
choose between them. -/
def score (svd : SvdFun) (cfg : ScoreConfig) (ref cur : PosePacket) : ScoreResult :=
  let normal := score_single svd cfg ref cur
  let mirrored : ScoreResult :=
    { score_single svd cfg ref (mirrorPacket cur) with mirror_used := true }
  match normal.final, mirrored.final with
  | none, none =>
    if normal.matched_joints < mirrored.matched_joints then mirrored else normal
  | none, some _ => mirrored
  | some _, none => normal
  | some nf, some mf => if nf < mf then mirrored else normal

/-- Kalman state vector `[position, velocity]`. -/
structure Vec2 where
  p : ℝ
  v : ℝ

/-- A 2x2 real matrix with entries `(a b / c d)`. -/
structure Mat2 where
  a : ℝ
  b : ℝ
  c : ℝ
  d : ℝ

/-- Transition `F = [[1, dt], [0, 1]]` applied to a state vector. -/
def fVec (dt : ℝ) (x : Vec2) : Vec2 :=
  ⟨x.p + dt * x.v, x.v⟩

/-- `F @ P @ F.T` for the constant-velocity transition. -/
def fMat (dt : ℝ) (m : Mat2) : Mat2 :=
  ⟨m.a + dt * m.c + dt * (m.b + dt * m.d), m.b + dt * m.d, m.c + dt * m.d, m.d⟩

/-- Process noise `Q = accel_var * [[dt^4/4, dt^3/2], [dt^3/2, dt^2]]`. -/
def qMat (dt accel_var : ℝ) : Mat2 :=
  ⟨accel_var * (dt * dt * (dt * dt) / 4), accel_var * (dt * dt * dt / 2),
   accel_var * (dt * dt * dt / 2), accel_var * (dt * dt)⟩

/-- Entrywise matrix sum. -/
def addM (m n : Mat2) : Mat2 :=
  ⟨m.a + n.a, m.b + n.b, m.c + n.c, m.d + n.d⟩

/-- Entrywise matrix difference. -/
def subM (m n : Mat2) : Mat2 :=
  ⟨m.a - n.a, m.b - n.b, m.c - n.c, m.d - n.d⟩

/-- 2x2 matrix product. -/
def mulM (m n : Mat2) : Mat2 :=
  ⟨m.a * n.a + m.b * n.c, m.a * n.b + m.b * n.d,
   m.c * n.a + m.d * n.c, m.c * n.b + m.d * n.d⟩

/-- 2x2 identity matrix. -/
def id2 : Mat2 := ⟨1, 0, 0, 1⟩

/-- Matrix transpose. -/
def transM (m : Mat2) : Mat2 := ⟨m.a, m.c, m.b, m.d⟩

/-- Matrix-vector product. -/
def mulMV (m : Mat2) (x : Vec2) : Vec2 :=
  ⟨m.a * x.p + m.b * x.v, m.c * x.p + m.d * x.v⟩

/-- Forward-filter state: current estimate, covariance and the count of
consecutive invalid frames. -/
structure KState where
  x : Vec2
  covP : Mat2
  gap : ℕ

/-- Per-frame record of the forward pass: predicted and filtered state and
covariance (`x_p, p_p, x_f, p_f` in the source; the prediction is stored
before any gap reset, exactly as in the source). -/
structure KRecord where
  xp : Vec2
  pp : Mat2
  xf : Vec2
  pf : Mat2

/-- One iteration of the forward Kalman loop of `kalman_rts_smooth_1d`. -/
def kalman_forward_step (dt r_base accel_var min_w : ℝ) (reset_gap : ℕ)
    (isFirst : Bool) (st : KState) (zk : Option ℝ) (wk : ℝ) :
    KRecord × KState :=
  let xpred := if isFirst then st.x else fVec dt st.x
  let ppred := if isFirst then st.covP else addM (fMat dt st.covP) (qMat dt accel_var)
  match zk with
  | some z =>
    if min_w ≤ wk then
      let xr := if reset_gap ≤ st.gap then (⟨z, 0⟩ : Vec2) else xpred
      let pr := if reset_gap ≤ st.gap then id2 else ppred
      let r := r_base / max (wk * wk) 1e-6
      let y := z - xr.p
      let s := pr.a + r
      if s < 1e-12 then
        (⟨xpred, ppred, xr, pr⟩, ⟨xr, pr, 0⟩)
      else
        let k0 := pr.a / s
        let k1 := pr.c / s
        let xn : Vec2 := ⟨xr.p + k0 * y, xr.v + k1 * y⟩
        let pn : Mat2 :=
          ⟨(1 - k0) * pr.a, (1 - k0) * pr.b, pr.c - k1 * pr.a, pr.d - k1 * pr.b⟩
        (⟨xpred, ppred, xn, pn⟩, ⟨xn, pn, 0⟩)
    else
      (⟨xpred, ppred, xpred, ppred⟩, ⟨xpred, ppred, st.gap + 1⟩)
  | none =>
    (⟨xpred, ppred, xpred, ppred⟩, ⟨xpred, ppred, st.gap + 1⟩)

/-- The forward pass over a list of `(measurement, weight)` pairs. -/
def kalman_forward_aux (dt r_base accel_var min_w : ℝ) (reset_gap : ℕ) :
    KState → Bool → List (Option ℝ × ℝ) → List KRecord × KState
  | st, _, [] => ([], st)
  | st, isFirst, (z, w) :: rest =>
    let step := kalman_forward_step dt r_base accel_var min_w reset_gap isFirst st z w
    let tail := kalman_forward_aux dt r_base accel_var min_w reset_gap step.2 false rest
    (step.1 :: tail.1, tail.2)

/-- One backward RTS update: combine frame `cur` with the already-smoothed
result `(xsN, psN)` of the next frame `next`, skipping the smoothing step
when the predicted covariance is near-singular. -/
def rts_step (dt : ℝ) (cur next : KRecord) (xsN : Vec2) (psN : Mat2) :
    Vec2 × Mat2 :=
  let det := next.pp.a * next.pp.d - next.pp.b * next.pp.c
  if |det| < 1e-12 then (cur.xf, cur.pf)
  else
    let inv : Mat2 := ⟨next.pp.d / det, -next.pp.b / det, -next.pp.c / det, next.pp.a / det⟩
    let cm := mulM (mulM cur.pf (transM ⟨1, dt, 0, 1⟩)) inv
    let dx : Vec2 := ⟨xsN.p - next.xp.p, xsN.v - next.xp.v⟩
    let xs : Vec2 := ⟨cur.xf.p + cm.a * dx.p + cm.b * dx.v,
                      cur.xf.v + cm.c * dx.p + cm.d * dx.v⟩
    let ps := addM cur.pf (mulM (mulM cm (subM psN next.pp)) (transM cm))
    (xs, ps)

/-- Backward pass helper: smooth the frame held in the first argument given
the (not yet smoothed) records of all later frames. -/
def rts_smooth_aux (dt : ℝ) : KRecord → List KRecord → (Vec2 × Mat2) × List (Vec2 × Mat2)
  | r, [] => ((r.xf, r.pf), [])
  | r, r2 :: rest =>
    let tail := rts_smooth_aux dt r2 rest
    (rts_step dt r r2 tail.1.1 tail.1.2, tail.1 :: tail.2)

/-- Full RTS backward pass over the forward records. -/
def rts_smooth (dt : ℝ) : List KRecord → List (Vec2 × Mat2)
  | [] => []
  | r :: rest =>
    let res := rts_smooth_aux dt r rest
    res.1 :: res.2

/-- NumPy linear-interpolation quantile of a nonempty sample list:
`h = (n-1) q`, interpolate between the floor and ceiling order statistics. -/
def nquantile (l : List ℝ) (q : ℝ) : ℝ :=
  let s := l.mergeSort (fun x y => decide (x ≤ y))
  let h : ℝ := ((s.length - 1 : ℕ) : ℝ) * q
  let lo : ℕ := ⌊h⌋₊
  let hi : ℕ := ⌈h⌉₊
  s.getD lo 0 + (h - (lo : ℝ)) * (s.getD hi 0 - s.getD lo 0)

/-- `int(round(x))` for nonnegative arguments (`np.round` ties cannot occur
at the call site, where the argument is `0.8 * fps`). -/
def npRound (x : ℝ) : ℕ := (⌊x + 1/2⌋).toNat

/-- First index of `l` minimising `f` (`np.argmin` keeps the first hit). -/
def argminBy (f : ℕ → ℝ) : List ℕ → ℕ
  | [] => 0
  | i :: rest => rest.foldl (fun best j => if f j < f best then j else best) i

/-- Maximal runs of `true` in a Boolean sequence over indices `0..n-1`,
returned as half-open `(start, end)` pairs, in order. -/
def stableRuns (stable : ℕ → Bool) (n : ℕ) : List (ℕ × ℕ) :=
  let step := fun (st : Option ℕ × List (ℕ × ℕ)) (i : ℕ) =>
    match st.1, stable i with
    | none, true => (some i, st.2)
    | none, false => (none, st.2)
    | some s, true => (some s, st.2)
    | some s, false => (none, st.2 ++ [(s, i)])
  let fin := (List.range n).foldl step (none, [])
  match fin.1 with
  | some s => fin.2 ++ [(s, n)]
  | none => fin.2

/-- Selector debug payload (the `temporal` dictionary of the source). -/
structure TemporalDebug where
  mode : String
  s_max : ℝ
  score_thr : ℝ
  vel_thr : Option ℝ
  picked_index : ℕ
  picked_score : ℝ
  topk : Option ℕ
  segment_start : Option ℕ
  segment_end : Option ℕ
  segment_len : Option ℕ
  representative_percentile : Option ℝ
  segment_score_median : Option ℝ
  segment_score_max : Option ℝ

/-- `pick_representative_index`: given per-frame scores (`none` = NaN),
reliability flags and motion energy, find the best stable run and pick a
representative frame; fall back to the top-k frames when no run qualifies;
return `none` when fewer than 3 frames are valid.  `vel_thr = none` models
the `+inf` threshold used when no finite motion sample exists. -/
def pick_representative_index (scores : List (Option ℝ)) (reliables : List Bool)
    (vel : List (Option ℝ)) (fps : ℕ)
    (stable_vel_quantile top_score_delta min_stable_seconds
      representative_percentile : ℝ) :
    Option (ℕ × TemporalDebug) :=
  let n := scores.length
  let sAt : ℕ → Option ℝ := fun i => scores.getD i none
  let sVal : ℕ → ℝ := fun i => (sAt i).getD 0
  let rAt : ℕ → Bool := fun i => reliables.getD i false
  let vAt : ℕ → Option ℝ := fun i => vel.getD i none
  let validB : ℕ → Bool := fun i => (sAt i).isSome && rAt i
  let validIdx : List ℕ := (List.range n).filter validB
  if validIdx.length < 3 then none
  else
    let s_max : ℝ := ((validIdx.map sVal).max?).getD 0
    let score_threshold : ℝ := max 0 (s_max - top_score_delta)
    let validVel : List ℝ := validIdx.filterMap vAt
    let vel_threshold : Option ℝ :=
      if 0 < validVel.length then some (nquantile validVel stable_vel_quantile)
      else none
    let stableB : ℕ → Bool := fun i =>
      validB i && decide (score_threshold ≤ sVal i) && (vAt i).isSome &&
        (match vel_threshold with
         | none => true
         | some t => decide ((vAt i).getD 0 ≤ t))
    let min_len : ℕ := max 3 (npRound (min_stable_seconds * (max fps 1 : ℕ)))
    let runs : List (ℕ × ℕ) :=
      (stableRuns stableB n).filter (fun r => decide (min_len ≤ r.2 - r.1))
    if runs.isEmpty then
      let k : ℕ := min 7 validIdx.length
      let sortedIdx := validIdx.mergeSort (fun i j => decide (sVal i ≤ sVal j))
      let top := sortedIdx.drop (sortedIdx.length - k)
      let target : ℝ := nquantile (top.map sVal) (representative_percentile / 100)
      let pick : ℕ := argminBy (fun i => |sVal i - target|) top
      some (pick,
        { mode := "fallback_topk", s_max := s_max, score_thr := score_threshold,
          vel_thr := vel_threshold, picked_index := pick, picked_score := sVal pick,
          topk := some k, segment_start := none, segment_end := none,
          segment_len := none, representative_percentile := none,
          segment_score_median := none, segment_score_max := none })
    else
      let best :=
        runs.foldl
          (fun (acc : Option (ℕ × ℕ) × ℝ × ℤ) run =>
            let finiteScores := (List.range' run.1 (run.2 - run.1)).filterMap sAt
            if finiteScores.isEmpty then acc
            else
              let med := nquantile finiteScores (1/2)
              if acc.2.1 < med ∨ (med = acc.2.1 ∧ (acc.2.2 : ℤ) < (run.2 - run.1 : ℕ)) then
                (some run, med, ((run.2 - run.1 : ℕ) : ℤ))
              else acc)
          (none, -1, -1)
      match best.1 with
      | none => none
      | some run =>
        let seg : List ℕ := List.range' run.1 (run.2 - run.1)
        let segScores : List ℝ := seg.map sVal
        let target : ℝ := nquantile segScores (representative_percentile / 100)
        let pick : ℕ := argminBy (fun i => |sVal i - target|) seg
        some (pick,
          { mode := "stable_segment", s_max := s_max, score_thr := score_threshold,
            vel_thr := vel_threshold, picked_index := pick, picked_score := sVal pick,
            topk := none, segment_start := some run.1, segment_end := some run.2,
            segment_len := some (run.2 - run.1),
            representative_percentile := some representative_percentile,
            segment_score_median := some (nquantile segScores (1/2)),
            segment_score_max := some ((segScores.max?).getD 0) })

/-- Index of the first valid measurement (`argmax(valid)` in the source). -/
def first_valid_idx (z : List (Option ℝ)) (w : List ℝ) (min_w : ℝ) : Option ℕ :=
  (List.range z.length).find?
    (fun k => (z.getD k none).isSome && decide (min_w ≤ w.getD k 0))

/-- `kalman_rts_smooth_1d`: constant-velocity forward Kalman filter with
confidence-weighted measurement noise and gap reset, followed by an RTS
backward pass; returns the input unchanged when no measurement is valid.
`none` entries model NaN samples. -/
def kalman_rts_smooth_1d (z : List (Option ℝ)) (w : List ℝ)
    (dt r_base accel_var min_w : ℝ) (reset_gap : ℕ) : List (Option ℝ) :=
  if z.length = 0 then z
  else
    match first_valid_idx z w min_w with
    | none => z
    | some i =>
      let init_val := (z.getD i none).getD 0
      let st0 : KState := ⟨⟨init_val, 0⟩, id2, 0⟩
      let fwd := kalman_forward_aux dt r_base accel_var min_w reset_gap st0 true (z.zip w)
      (rts_smooth dt fwd.1).map (fun e => some e.1.p)

/-- The per-joint-per-axis measurement trajectory fed to the smoother
(NaN — here `none` — where the pose is missing). -/
def z_traj (poses : List (Option PosePacket)) (j : Fin 33) (a : Fin 3) :
    List (Option ℝ) :=
  poses.map (fun p =>
    match p with
    | none => none
    | some pk => some (pk.points j a))

/-- The per-joint confidence trajectory `clip(min(vis, pres), 0, 1)`
(zero where the pose is missing). -/
def conf_traj (poses : List (Option PosePacket)) (j : Fin 33) : List ℝ :=
  poses.map (fun p =>
    match p with
    | none => 0
    | some pk => clip01 (min (pk.vis j) (pk.pres j)))

/-- `stabilize_pose_sequence_rts`: RTS-smooth every joint/axis trajectory;
missing poses pass through as `none`, and smoothed packets keep the raw
visibility/presence arrays. -/
def stabilize_pose_sequence_rts (poses : List (Option PosePacket)) (fps : ℕ)
    (min_conf r_base accel_var : ℝ) (reset_gap : ℕ) :
    List (Option PosePacket) :=
  let dt : ℝ := 1 / max (fps : ℝ) 1
  (List.range poses.length).map (fun t =>
    match poses.getD t none with
    | none => none
    | some pk =>
      some ⟨fun j a =>
        ((kalman_rts_smooth_1d (z_traj poses j a) (conf_traj poses j) dt
            r_base accel_var min_conf reset_gap).getD t none).getD 0,
        pk.vis, pk.pres⟩)

/-- The combined two-frame joint weight of `compute_motion_energy`:
`min(clip(min(vis,pres),0,1)` of the previous frame, same of the current). -/
def pair_weight (p q : PosePacket) (j : Fin 33) : ℝ :=
  min (clip01 (min (p.vis j) (p.pres j))) (clip01 (min (q.vis j) (q.pres j)))

/-- `compute_motion_energy`: per-frame mean Euclidean delta of the
centred-and-scaled selected joints whose combined weight reaches the
threshold; `none` models the NaN entries. -/
def compute_motion_energy (poses : List (Option PosePacket))
    (conf_threshold : ℝ) : List (Option ℝ) :=
  (List.range poses.length).map (fun idx =>
    if idx = 0 then none
    else
      match poses.getD (idx - 1) none, poses.getD idx none with
      | some prev_pose, some cur_pose =>
        let prev_norm := center_and_scale prev_pose.points
        let cur_norm := center_and_scale cur_pose.points
        let validK : List (Fin 16) := (List.finRange 16).filter
          (fun k => decide (conf_threshold ≤
            pair_weight prev_pose cur_pose (POSE_SELECTED_INDICES k)))
        if validK.length < 6 then none
        else
          some ((validK.map (fun k => norm3 (fun c =>
              cur_norm (POSE_SELECTED_INDICES k) c -
                prev_norm (POSE_SELECTED_INDICES k) c))).sum /
            (validK.length : ℝ))
      | _, _ => none)

/-- The motion-energy array that `postprocess_best_from_sequence` passes to
the segment selector: `compute_motion_energy` applied to the RTS-smoothed
sequence, with the smoother parameters of the source call site. -/
def postprocess_vel (poses : List (Option PosePacket)) (fps : ℕ)
    (conf_threshold : ℝ) : List (Option ℝ) :=
  compute_motion_energy
    (stabilize_pose_sequence_rts poses (max 1 fps) conf_threshold 1e-4 3
      (max 2 (max fps 1 / 2)))
    conf_threshold

/-- The selected landmark indices, written out. -/
def SELECTED_CLAIM : List (Fin 33) :=
  [11, 12, 13, 14, 15, 16, 23, 24, 25, 26, 27, 28, 29, 30, 31, 32]

/-- The motion-energy formula in the words of the specification claim: for
`i ≥ 1` with both adjacent packets present, the mean Euclidean delta of the
centred-and-scaled selected joints whose weight meets the confidence
threshold, requiring at least 6 such joints, and NaN (`none`) otherwise. -/
def motion_energy_claim (poses : List (Option PosePacket))
    (conf_threshold : ℝ) (i : ℕ) : Option ℝ :=
  if i = 0 then none
  else
    match poses.getD (i - 1) none, poses.getD i none with
    | some prev_pose, some cur_pose =>
      let good : List (Fin 33) := SELECTED_CLAIM.filter
        (fun j => decide (conf_threshold ≤ pair_weight prev_pose cur_pose j))
      if good.length < 6 then none
      else
        some ((good.map (fun j => norm3 (fun c =>
            center_and_scale cur_pose.points j c -
              center_and_scale prev_pose.points j c))).sum /
          (good.length : ℝ))
    | _, _ => none

end StandHold

namespace StandHold

/-- C10: `swap_left_right` applied twice is the identity, and
`mirror_and_swap_points` applied twice is the identity. -/
theorem mirror_and_swap_involutive :
    ∀ (P : Points33) (v : Arr33),
      mirror_and_swap_points (mirror_and_swap_points P) = P ∧
      swap_left_right (swap_left_right v) = v := by
  have hswap : ∀ {α : Type} (v : Fin 33 → α),
      swap_left_right (swap_left_right v) = v := by
    intro α v
    funext i
    rw [swap_left_right_apply, swap_left_right_apply, swapIdx_involutive]
  intro P v
  refine ⟨?_, hswap v⟩
  funext j a
  unfold mirror_and_swap_points
  rw [swap_left_right_apply]
  have hinner : ∀ (Q : Points33) (i : Fin 33) (b : Fin 3),
      swap_left_right Q i b = Q (swapIdx i) b := by
    intro Q i b
    rw [swap_left_right_apply]
  by_cases h : a = 0 <;>
    simp [h, swap_left_right_apply, swapIdx_involutive]

/-- C9 counterexample: at `a = 500, b = 0` the wrapped angle difference is
negative, contradicting the claimed range `[0, 180]` for all finite inputs. -/
theorem wrapped_angle_diff_out_of_range :
    wrapped_angle_diff 500 0 < 0 := by
  have h : |(500 : ℝ) - 0| = 500 := by norm_num
  rw [wrapped_angle_diff, h]
  norm_num [min_def]

/-- C9 (amended): `wrapped_angle_diff` is symmetric for all inputs, and lies
in `[0, 180]` whenever both inputs lie in `[0, 360]` (as produced by
`angle_deg`). -/
theorem wrapped_angle_diff_symm_range (a b : ℝ) :
    wrapped_angle_diff a b = wrapped_angle_diff b a ∧
    (0 ≤ a → a ≤ 360 → 0 ≤ b → b ≤ 360 →
      0 ≤ wrapped_angle_diff a b ∧ wrapped_angle_diff a b ≤ 180) := by
  constructor
  · unfold wrapped_angle_diff
    rw [abs_sub_comm]
  · intro ha0 ha1 hb0 hb1
    have hd0 : 0 ≤ |a - b| := abs_nonneg _
    have hd1 : |a - b| ≤ 360 := by
      rw [abs_sub_le_iff]
      constructor <;> linarith
    unfold wrapped_angle_diff
    constructor
    · exact le_min hd0 (by linarith)
    · rcases le_total |a - b| 180 with h | h
      · exact le_trans (min_le_left _ _) h
      · exact le_trans (min_le_right _ _) (by linarith)

lemma kalman_forward_step_const
    (dt r_base accel_var min_w : ℝ) (reset_gap : ℕ) (b : Bool) (st : KState)
    (v : ℝ) (hx : st.x = ⟨v, 0⟩) (hw : min_w ≤ 1) :
    (kalman_forward_step dt r_base accel_var min_w reset_gap b st (some v) 1).1.xp = ⟨v, 0⟩ ∧
    (kalman_forward_step dt r_base accel_var min_w reset_gap b st (some v) 1).1.xf = ⟨v, 0⟩ ∧
    (kalman_forward_step dt r_base accel_var min_w reset_gap b st (some v) 1).2.x = ⟨v, 0⟩ ∧
    (kalman_forward_step dt r_base accel_var min_w reset_gap b st (some v) 1).2.gap = 0 := by
  cases b <;>
    simp only [kalman_forward_step, hx, fVec, if_pos hw, Bool.false_eq_true,
      if_false, if_true, mul_zero, add_zero] <;>
    split <;> split <;> simp

lemma kalman_forward_step_invalid
    (dt r_base accel_var min_w : ℝ) (reset_gap : ℕ) (b : Bool) (st : KState)
    (v u : ℝ) (hx : st.x = ⟨v, 0⟩) (hw : ¬ min_w ≤ 0) :
    (kalman_forward_step dt r_base accel_var min_w reset_gap b st (some u) 0).1.xp = ⟨v, 0⟩ ∧
    (kalman_forward_step dt r_base accel_var min_w reset_gap b st (some u) 0).1.xf = ⟨v, 0⟩ ∧
    (kalman_forward_step dt r_base accel_var min_w reset_gap b st (some u) 0).2.x = ⟨v, 0⟩ ∧
    (kalman_forward_step dt r_base accel_var min_w reset_gap b st (some u) 0).2.gap = st.gap + 1 := by
  cases b <;>
    simp only [kalman_forward_step, hx, fVec, if_neg hw, Bool.false_eq_true,
      if_false, if_true, mul_zero, add_zero] <;>
    simp

lemma kalman_forward_step_reset
    (dt r_base accel_var min_w : ℝ) (reset_gap : ℕ) (b : Bool) (st : KState)
    (v u : ℝ) (hx : st.x = ⟨v, 0⟩) (hw : min_w ≤ 1)
    (hgap : reset_gap ≤ st.gap) :
    (kalman_forward_step dt r_base accel_var min_w reset_gap b st (some u) 1).1.xp = ⟨v, 0⟩ ∧
    (kalman_forward_step dt r_base accel_var min_w reset_gap b st (some u) 1).1.xf = ⟨u, 0⟩ ∧
    (kalman_forward_step dt r_base accel_var min_w reset_gap b st (some u) 1).2.x = ⟨u, 0⟩ ∧
    (kalman_forward_step dt r_base accel_var min_w reset_gap b st (some u) 1).2.gap = 0 := by
  cases b <;>
    simp only [kalman_forward_step, hx, fVec, if_pos hw, if_pos hgap,
      Bool.false_eq_true, if_false, if_true, mul_zero, add_zero] <;>
    split <;> simp

lemma kalman_forward_aux_append
    (dt r_base accel_var min_w : ℝ) (reset_gap : ℕ) :
    ∀ (l₁ l₂ : List (Option ℝ × ℝ)) (st : KState) (b : Bool),
      kalman_forward_aux dt r_base accel_var min_w reset_gap st b (l₁ ++ l₂) =
        ((kalman_forward_aux dt r_base accel_var min_w reset_gap st b l₁).1 ++
          (kalman_forward_aux dt r_base accel_var min_w reset_gap
            (kalman_forward_aux dt r_base accel_var min_w reset_gap st b l₁).2
            (b && l₁.isEmpty) l₂).1,
         (kalman_forward_aux dt r_base accel_var min_w reset_gap
            (kalman_forward_aux dt r_base accel_var min_w reset_gap st b l₁).2
            (b && l₁.isEmpty) l₂).2) := by
  intro l₁
  induction l₁ with
  | nil => intro l₂ st b; simp [kalman_forward_aux]
  | cons x t ih =>
    intro l₂ st b
    cases x with
    | mk z w => simp [kalman_forward_aux, ih]

lemma kalman_forward_aux_const
    (dt r_base accel_var min_w : ℝ) (reset_gap : ℕ) (v : ℝ) (hw : min_w ≤ 1) :
    ∀ (n : ℕ) (st : KState) (b : Bool), st.x = ⟨v, 0⟩ →
      (kalman_forward_aux dt r_base accel_var min_w reset_gap st b
          (List.replicate n ((some v : Option ℝ), (1 : ℝ)))).2.x = ⟨v, 0⟩ ∧
      (kalman_forward_aux dt r_base accel_var min_w reset_gap st b
          (List.replicate n ((some v : Option ℝ), (1 : ℝ)))).2.gap =
        (if n = 0 then st.gap else 0) ∧
      (kalman_forward_aux dt r_base accel_var min_w reset_gap st b
          (List.replicate n ((some v : Option ℝ), (1 : ℝ)))).1.length = n ∧
      ∀ r ∈ (kalman_forward_aux dt r_base accel_var min_w reset_gap st b
          (List.replicate n ((some v : Option ℝ), (1 : ℝ)))).1,
        r.xp = ⟨v, 0⟩ ∧ r.xf = ⟨v, 0⟩ := by
  intro n
  induction n with
  | zero => intro st b hx; simp [kalman_forward_aux, hx]
  | succ m ih =>
    intro st b hx
    obtain ⟨h1, h2, h3, h4⟩ :=
      kalman_forward_step_const dt r_base accel_var min_w reset_gap b st v hx hw
    obtain ⟨g1, g2, g3, g4⟩ :=
      ih (kalman_forward_step dt r_base accel_var min_w reset_gap b st (some v) 1).2
        false h3
    refine ⟨?_, ?_, ?_, ?_⟩ <;>
      simp only [List.replicate_succ, kalman_forward_aux]
    · exact g1
    · rcases Nat.eq_zero_or_pos m with hm | hm
      · simpa [hm, h4] using g2
      · simpa [Nat.pos_iff_ne_zero.mp hm] using g2
    · simp [g3]
    · intro r hr
      rcases List.mem_cons.mp hr with hr | hr
      · exact hr ▸ ⟨h1, h2⟩
      · exact g4 r hr

lemma kalman_forward_aux_invalid
    (dt r_base accel_var min_w : ℝ) (reset_gap : ℕ) (v u : ℝ) (hw : ¬ min_w ≤ 0) :
    ∀ (n : ℕ) (st : KState) (b : Bool), st.x = ⟨v, 0⟩ →
      (kalman_forward_aux dt r_base accel_var min_w reset_gap st b
          (List.replicate n ((some u : Option ℝ), (0 : ℝ)))).2.x = ⟨v, 0⟩ ∧
      (kalman_forward_aux dt r_base accel_var min_w reset_gap st b
          (List.replicate n ((some u : Option ℝ), (0 : ℝ)))).2.gap = st.gap + n ∧
      (kalman_forward_aux dt r_base accel_var min_w reset_gap st b
          (List.replicate n ((some u : Option ℝ), (0 : ℝ)))).1.length = n ∧
      ∀ r ∈ (kalman_forward_aux dt r_base accel_var min_w reset_gap st b
          (List.replicate n ((some u : Option ℝ), (0 : ℝ)))).1,
        r.xp = ⟨v, 0⟩ ∧ r.xf = ⟨v, 0⟩ := by
  intro n
  induction n with
  | zero => intro st b hx; simp [kalman_forward_aux, hx]
  | succ m ih =>
    intro st b hx
    obtain ⟨h1, h2, h3, h4⟩ :=
      kalman_forward_step_invalid dt r_base accel_var min_w reset_gap b st v u hx hw
    obtain ⟨g1, g2, g3, g4⟩ :=
      ih (kalman_forward_step dt r_base accel_var min_w reset_gap b st (some u) 0).2
        false h3
    refine ⟨?_, ?_, ?_, ?_⟩ <;>
      simp only [List.replicate_succ, kalman_forward_aux]
    · exact g1
    · rw [g2, h4]; omega
    · simp [g3]
    · intro r hr
      rcases List.mem_cons.mp hr with hr | hr
      · exact hr ▸ ⟨h1, h2⟩
      · exact g4 r hr

lemma rts_smooth_aux_const (dt v : ℝ) :
    ∀ (l : List KRecord) (r : KRecord), r.xf = ⟨v, 0⟩ →
      (∀ q ∈ l, q.xp = ⟨v, 0⟩ ∧ q.xf = ⟨v, 0⟩) →
      (rts_smooth_aux dt r l).1.1 = ⟨v, 0⟩ := by
  intro l
  induction l with
  | nil => intro r hr _; simpa [rts_smooth_aux]
  | cons r2 rest ih =>
    intro r hr hall
    have h2 := hall r2 (List.mem_cons_self r2 rest)
    have htail : (rts_smooth_aux dt r2 rest).1.1 = ⟨v, 0⟩ :=
      ih r2 h2.2 (fun q hq => hall q (List.mem_cons_of_mem _ hq))
    simp only [rts_smooth_aux, rts_step]
    split
    · exact hr
    · simp [htail, h2.1, hr]

lemma rts_smooth_cons_of_ne (dt : ℝ) (a : KRecord) (l : List KRecord) (h : l ≠ []) :
    rts_smooth dt (a :: l) =
      (rts_smooth_aux dt a l).1 :: rts_smooth dt l := by
  cases l with
  | nil => exact absurd rfl h
  | cons r2 rest => simp [rts_smooth, rts_smooth_aux]

lemma rts_smooth_drop (dt : ℝ) :
    ∀ (pre l : List KRecord), l ≠ [] →
      (rts_smooth dt (pre ++ l)).drop pre.length = rts_smooth dt l := by
  intro pre
  induction pre with
  | nil => intro l _; simp
  | cons a pre2 ih =>
    intro l hl
    have hne : pre2 ++ l ≠ [] := by
      intro hcon
      exact hl (List.append_eq_nil.mp hcon).2
    rw [List.cons_append, rts_smooth_cons_of_ne dt a (pre2 ++ l) hne]
    simpa using ih l hl

lemma rts_smooth_getElem (dt : ℝ) (pre l : List KRecord) (h : l ≠ []) (k : ℕ) :
    (rts_smooth dt (pre ++ l))[pre.length + k]? = (rts_smooth dt l)[k]? := by
  rw [← List.getElem?_drop, rts_smooth_drop dt pre l h]

/-- The S5 gap-reset measurement trajectory: ten valid samples at 0, five
samples with zero weight, ten valid samples at 1. -/
def c6_z : List (Option ℝ) :=
  List.replicate 10 (some 0) ++ List.replicate 5 (some 0) ++ List.replicate 10 (some 1)

/-- The confidence weights for `c6_z`: weight 1 on valid samples, 0 inside
the gap. -/
def c6_w : List ℝ :=
  List.replicate 10 1 ++ List.replicate 5 0 ++ List.replicate 10 1

lemma kalman_forward_aux_cons (dt r_base accel_var min_w : ℝ) (reset_gap : ℕ)
    (st : KState) (b : Bool) (z : Option ℝ) (w : ℝ) (rest : List (Option ℝ × ℝ)) :
    kalman_forward_aux dt r_base accel_var min_w reset_gap st b ((z, w) :: rest) =
      ((kalman_forward_step dt r_base accel_var min_w reset_gap b st z w).1 ::
        (kalman_forward_aux dt r_base accel_var min_w reset_gap
          (kalman_forward_step dt r_base accel_var min_w reset_gap b st z w).2
          false rest).1,
       (kalman_forward_aux dt r_base accel_var min_w reset_gap
          (kalman_forward_step dt r_base accel_var min_w reset_gap b st z w).2
          false rest).2) := rfl

lemma c6_forward_decomp (dt : ℝ) (rg : ℕ) (hrg : rg ≤ 5) :
    ∃ (pre : List KRecord) (rc : KRecord) (rest : List KRecord) (stf : KState),
      kalman_forward_aux dt 1e-4 3 (1/2) rg ⟨⟨0, 0⟩, id2, 0⟩ true
          (List.replicate 10 ((some (0:ℝ)), (1:ℝ)) ++
            (List.replicate 5 ((some (0:ℝ)), (0:ℝ)) ++
              (((some (1:ℝ)), (1:ℝ)) :: List.replicate 9 ((some (1:ℝ)), (1:ℝ))))) =
        (pre ++ (rc :: rest), stf) ∧
      pre.length = 15 ∧ rc.xf = ⟨1, 0⟩ ∧
      ∀ q ∈ rest, q.xp = ⟨1, 0⟩ ∧ q.xf = ⟨1, 0⟩ := by
  obtain ⟨hA1, hA2, hA3, hA4⟩ :=
    kalman_forward_aux_const dt 1e-4 3 (1/2) rg 0 (by norm_num) 10
      ⟨⟨0, 0⟩, id2, 0⟩ true rfl
  obtain ⟨recsA, stA, hsA⟩ :
      ∃ r s, kalman_forward_aux dt 1e-4 3 (1/2) rg ⟨⟨0, 0⟩, id2, 0⟩ true
        (List.replicate 10 ((some (0:ℝ)), (1:ℝ))) = (r, s) := ⟨_, _, rfl⟩
  rw [hsA] at hA1 hA2 hA3 hA4
  dsimp only at hA1 hA2 hA3 hA4
  have hAgap : stA.gap = 0 := by rw [hA2]; norm_num
  obtain ⟨hB1, hB2, hB3, hB4⟩ :=
    kalman_forward_aux_invalid dt 1e-4 3 (1/2) rg 0 0 (by norm_num) 5 stA false hA1
  obtain ⟨recsB, stB, hsB⟩ :
      ∃ r s, kalman_forward_aux dt 1e-4 3 (1/2) rg stA false
        (List.replicate 5 ((some (0:ℝ)), (0:ℝ))) = (r, s) := ⟨_, _, rfl⟩
  rw [hsB] at hB1 hB2 hB3 hB4
  dsimp only at hB1 hB2 hB3 hB4
  have hBgap : stB.gap = 5 := by rw [hB2, hAgap]
  obtain ⟨hC1, hC2, hC3, hC4⟩ :=
    kalman_forward_step_reset dt 1e-4 3 (1/2) rg false stB 0 1 hB1 (by norm_num)
      (by rw [hBgap]; exact hrg)
  obtain ⟨rC, stC, hsC⟩ :
      ∃ r s, kalman_forward_step dt 1e-4 3 (1/2) rg false stB (some 1) 1 = (r, s) :=
    ⟨_, _, rfl⟩
  rw [hsC] at hC1 hC2 hC3 hC4
  dsimp only at hC1 hC2 hC3 hC4
  obtain ⟨hD1, hD2, hD3, hD4⟩ :=
    kalman_forward_aux_const dt 1e-4 3 (1/2) rg 1 (by norm_num) 9 stC false hC3
  obtain ⟨recsD, stD, hsD⟩ :
      ∃ r s, kalman_forward_aux dt 1e-4 3 (1/2) rg stC false
        (List.replicate 9 ((some (1:ℝ)), (1:ℝ))) = (r, s) := ⟨_, _, rfl⟩
  rw [hsD] at hD4
  dsimp only at hD4
  have h2 := kalman_forward_aux_append dt 1e-4 3 (1/2) rg
    (List.replicate 5 ((some (0:ℝ)), (0:ℝ)))
    (((some (1:ℝ)), (1:ℝ)) :: List.replicate 9 ((some (1:ℝ)), (1:ℝ))) stA false
  rw [hsB] at h2
  simp only [Bool.false_and] at h2
  have h3 : kalman_forward_aux dt 1e-4 3 (1/2) rg stB false
      (((some (1:ℝ)), (1:ℝ)) :: List.replicate 9 ((some (1:ℝ)), (1:ℝ))) =
      (rC :: recsD, stD) := by
    rw [kalman_forward_aux_cons, hsC]
    dsimp only
    rw [hsD]
  rw [h3] at h2
  dsimp only at h2
  have h1 := kalman_forward_aux_append dt 1e-4 3 (1/2) rg
    (List.replicate 10 ((some (0:ℝ)), (1:ℝ)))
    (List.replicate 5 ((some (0:ℝ)), (0:ℝ)) ++
      (((some (1:ℝ)), (1:ℝ)) :: List.replicate 9 ((some (1:ℝ)), (1:ℝ))))
    ⟨⟨0, 0⟩, id2, 0⟩ true
  rw [hsA] at h1
  simp only [show (List.replicate 10 ((some (0:ℝ)), (1:ℝ))).isEmpty = false from rfl,
    Bool.and_false] at h1
  rw [h2] at h1
  dsimp only at h1
  rw [show recsA ++ (recsB ++ rC :: recsD) = (recsA ++ recsB) ++ rC :: recsD from
    (List.append_assoc recsA recsB (rC :: recsD)).symm] at h1
  exact ⟨_, _, _, _, h1, by rw [List.length_append, hA3, hB3], hC2, hD4⟩

lemma c6_zip :
    c6_z.zip c6_w =
      List.replicate 10 ((some (0:ℝ)), (1:ℝ)) ++
        (List.replicate 5 ((some (0:ℝ)), (0:ℝ)) ++
          (((some (1:ℝ)), (1:ℝ)) :: List.replicate 9 ((some (1:ℝ)), (1:ℝ)))) := by
  simp only [c6_z, c6_w]
  rw [List.append_assoc, List.append_assoc]
  rw [List.zip_append (by simp), List.zip_append (by simp)]
  simp only [List.zip_replicate']
  rw [show List.replicate 10 (((some (1:ℝ))), (1:ℝ)) =
    ((some (1:ℝ)), (1:ℝ)) :: List.replicate 9 ((some (1:ℝ)), (1:ℝ)) from rfl]

lemma c6_first_valid : first_valid_idx c6_z c6_w (1/2) = some 0 := by
  unfold first_valid_idx
  rw [show c6_z.length = 25 by simp [c6_z]]
  rw [show (25:ℕ) = 24 + 1 from rfl, List.range_succ_eq_map]
  refine List.find?_cons_of_pos _ ?_
  show ((c6_z.getD 0 none).isSome && decide ((1/2:ℝ) ≤ c6_w.getD 0 0)) = true
  rw [show c6_z.getD 0 none = some 0 from rfl, show c6_w.getD 0 0 = (1:ℝ) from rfl]
  simp only [Option.isSome_some, Bool.true_and, decide_eq_true_eq]
  norm_num

/-- C6: on the S5 trajectory (ten valid samples at 0, a five-frame gap with
zero weight, ten valid samples at 1), with the configured defaults
`r_base = 1e-4`, `accel_var = 3`, `conf = 0.5`,
`reset_gap_frames = max(2, fps/2)` and any fps for which the five-frame gap
meets the reset threshold (`fps ≤ 11`), the smoothed output at the first
post-gap sample is within 0.05 of 1.0 (it is exactly 1.0). -/
theorem kalman_gap_reset_recovery (fps : ℕ) (hfps1 : 1 ≤ fps) (hfps2 : fps ≤ 11) :
    ∃ v : ℝ,
      (kalman_rts_smooth_1d c6_z c6_w (1 / max (fps : ℝ) 1) 1e-4 3 (1/2)
          (max 2 (fps / 2)))[15]? = some (some v) ∧ |v - 1| ≤ 0.05 := by
  have hrg : max 2 (fps / 2) ≤ 5 := max_le (by norm_num) (by omega)
  obtain ⟨pre, rc, rest, stf, heq, hlen, hxf, hall⟩ :=
    c6_forward_decomp (1 / max (fps : ℝ) 1) (max 2 (fps / 2)) hrg
  refine ⟨1, ?_, by norm_num⟩
  have hne : ¬ (c6_z.length = 0) := by simp [c6_z]
  simp only [kalman_rts_smooth_1d, if_neg hne, c6_first_valid]
  rw [show ((c6_z.getD 0 none).getD 0 : ℝ) = 0 from rfl]
  rw [c6_zip, heq]
  dsimp only
  simp only [List.getElem?_map]
  have hidx := rts_smooth_getElem (1 / max (fps : ℝ) 1) pre (rc :: rest)
    (by simp) 0
  rw [hlen] at hidx
  simp only [Nat.add_zero] at hidx
  rw [hidx]
  have hfinal := rts_smooth_aux_const (1 / max (fps : ℝ) 1) 1 rest rc hxf hall
  simp only [rts_smooth, List.getElem?_cons_zero, Option.map_some']
  rw [hfinal]

/-- C6 witness instance at the concrete configuration `fps = 10`. -/
theorem kalman_gap_reset_recovery_witness :
    ∃ v : ℝ,
      (kalman_rts_smooth_1d c6_z c6_w (1 / max ((10 : ℕ) : ℝ) 1) 1e-4 3 (1/2)
          (max 2 (10 / 2)))[15]? = some (some v) ∧ |v - 1| ≤ 0.05 :=
  kalman_gap_reset_recovery 10 (by norm_num) (by norm_num)

lemma center_and_scale_add_const (P : Points33) (c : Pt3) :
    center_and_scale (fun j a => P j a + c a) = center_and_scale P := by
  have hcent : ∀ (j : Fin 33) (a : Fin 3),
      P j a + c a - ((P 23 a + c a) + (P 24 a + c a)) / 2 =
        P j a - (P 23 a + P 24 a) / 2 := by
    intro j a; ring
  have hsh :
      (fun a : Fin 3 =>
        ((P 11 a + c a) + (P 12 a + c a)) / 2 -
          ((P 23 a + c a) + (P 24 a + c a)) / 2) =
      (fun a : Fin 3 => (P 11 a + P 12 a) / 2 - (P 23 a + P 24 a) / 2) := by
    funext a; ring
  have hpair : ∀ (pr : Fin 33 × Fin 33),
      (fun a : Fin 3 => P pr.1 a + c a - (P pr.2 a + c a)) =
      (fun a : Fin 3 => P pr.1 a - P pr.2 a) := by
    intro pr; funext a; ring
  funext j a
  simp only [center_and_scale, hcent, hsh, hpair]

/-- C8: `center_and_scale` is translation-invariant; shifting every input
point by a constant vector changes each output component by at most
`1e-6` (in fact not at all). -/
theorem center_and_scale_translation_invariant
    (P : Points33) (c : Pt3) (j : Fin 33) (a : Fin 3) :
    |center_and_scale (fun j a => P j a + c a) j a - center_and_scale P j a|
      ≤ 1e-6 := by
  rw [center_and_scale_add_const]
  norm_num

/-- C5: whenever fewer than 3 frames are simultaneously reliable and have a
finite score (in particular when `reliables` is all false), the segment
selector returns no pick. -/
theorem pick_representative_none_when_few_valid
    (scores : List (Option ℝ)) (reliables : List Bool) (vel : List (Option ℝ))
    (fps : ℕ) (svq tsd mss rp : ℝ)
    (h : ((List.range scores.length).filter
        (fun i => (scores.getD i none).isSome && reliables.getD i false)).length < 3) :
    pick_representative_index scores reliables vel fps svq tsd mss rp = none := by
  unfold pick_representative_index
  simp only [if_pos h]

/-- C5 witness: three scored frames, `reliables` all false. -/
theorem pick_representative_none_witness :
    pick_representative_index
      [some 1, some 2, some 3] [false, false, false] [none, none, none]
      12 0.35 12 0.8 80 = none :=
  pick_representative_none_when_few_valid _ _ _ _ _ _ _ _ (by decide)

lemma score_single_shape (svd : SvdFun) (cfg : ScoreConfig) (ref cur : PosePacket) :
    ((score_single svd cfg ref cur).final = none ↔
      (score_single svd cfg ref cur).reliable = false) ∧
    (score_single svd cfg ref cur).mirror_used = false := by
  simp only [score_single]
  refine ⟨?_, ?_⟩ <;>
    · split
      · simp
      · split
        · simp
        · split
          · split <;> simp
          · simp

/-- C1: the scorer is a total function of well-shaped packets (the
embedding maps every input to a `ScoreResult`), and in the returned result
`final` is `none` exactly when `reliable` is false — for every SVD
primitive, configuration and pair of packets. -/
theorem score_final_none_iff_unreliable (svd : SvdFun) (cfg : ScoreConfig)
    (ref cur : PosePacket) :
    (score svd cfg ref cur).final = none ↔
      (score svd cfg ref cur).reliable = false := by
  obtain ⟨hn, hnm⟩ := score_single_shape svd cfg ref cur
  obtain ⟨hm, hmm⟩ := score_single_shape svd cfg ref (mirrorPacket cur)
  simp only [score]
  rcases hNf : (score_single svd cfg ref cur).final with _ | nf <;>
    rcases hMf : (score_single svd cfg ref (mirrorPacket cur)).final with _ | mf
  · simp only [hNf, hMf]
    split <;> simp [hNf, hMf, hn.mp hNf, hm.mp hMf]
  · simp only [hNf, hMf]
    simp [← hm, hMf]
  · simp only [hNf, hMf]
    simp [← hn, hNf]
  · simp only [hNf, hMf]
    split <;> simp [← hn, ← hm, hNf, hMf]

/-- The mirrored-candidate result with its `mirror_used` flag set, as built
inside `PoseScorer.score`. -/
def mirrored_result (svd : SvdFun) (cfg : ScoreConfig) (ref cur : PosePacket) :
    ScoreResult :=
  { score_single svd cfg ref (mirrorPacket cur) with mirror_used := true }

/-- C2: `PoseScorer.score` evaluates both the raw candidate and the
mirror-swapped candidate, returns one of the two results; with both finals
null it returns the variant that matched strictly more joints (preferring
the raw variant on ties), with exactly one final null it returns the
non-null variant, with both present it returns the strictly higher-final
variant (raw on ties); and `mirror_used` is true exactly when the mirrored
variant is chosen. -/
theorem score_mirror_selection (svd : SvdFun) (cfg : ScoreConfig)
    (ref cur : PosePacket) :
    (score svd cfg ref cur = score_single svd cfg ref cur ∨
      score svd cfg ref cur = mirrored_result svd cfg ref cur) ∧
    ((score_single svd cfg ref cur).final = none →
      (mirrored_result svd cfg ref cur).final = none →
      score svd cfg ref cur =
        (if (score_single svd cfg ref cur).matched_joints <
            (mirrored_result svd cfg ref cur).matched_joints then
          mirrored_result svd cfg ref cur else score_single svd cfg ref cur)) ∧
    ((score_single svd cfg ref cur).final = none →
      (mirrored_result svd cfg ref cur).final ≠ none →
      score svd cfg ref cur = mirrored_result svd cfg ref cur) ∧
    ((mirrored_result svd cfg ref cur).final = none →
      (score_single svd cfg ref cur).final ≠ none →
      score svd cfg ref cur = score_single svd cfg ref cur) ∧
    (∀ nf mf, (score_single svd cfg ref cur).final = some nf →
      (mirrored_result svd cfg ref cur).final = some mf →
      score svd cfg ref cur =
        (if nf < mf then mirrored_result svd cfg ref cur
         else score_single svd cfg ref cur)) ∧
    ((score svd cfg ref cur).mirror_used = true ↔
      score svd cfg ref cur = mirrored_result svd cfg ref cur) := by
  obtain ⟨hn, hnm⟩ := score_single_shape svd cfg ref cur
  obtain ⟨hm2, hmm⟩ := score_single_shape svd cfg ref (mirrorPacket cur)
  have hmn : (mirrored_result svd cfg ref cur).mirror_used = true := rfl
  have hnm2 : (score_single svd cfg ref cur).mirror_used = false := hnm
  have hneq : ¬ (score_single svd cfg ref cur = mirrored_result svd cfg ref cur) := by
    intro h
    rw [h, hmn] at hnm2
    simp at hnm2
  have hmf0 : (mirrored_result svd cfg ref cur).final =
      (score_single svd cfg ref (mirrorPacket cur)).final := rfl
  have hscore : score svd cfg ref cur =
      match (score_single svd cfg ref cur).final,
          (mirrored_result svd cfg ref cur).final with
      | none, none =>
        if (score_single svd cfg ref cur).matched_joints <
            (mirrored_result svd cfg ref cur).matched_joints then
          mirrored_result svd cfg ref cur else score_single svd cfg ref cur
      | none, some _ => mirrored_result svd cfg ref cur
      | some _, none => score_single svd cfg ref cur
      | some nf, some mf =>
        if nf < mf then mirrored_result svd cfg ref cur
        else score_single svd cfg ref cur := rfl
  rcases hNf : (score_single svd cfg ref cur).final with _ | nf <;>
    rcases hMf : (mirrored_result svd cfg ref cur).final with _ | mf <;>
    rw [hscore] <;> simp only [hNf, hMf]
  · refine ⟨?_, ?_, ?_, ?_, ?_, ?_⟩
    · split <;> simp
    · intro _ _; trivial
    · intro _ h2; exact absurd rfl h2
    · intro _ h2; exact absurd rfl h2
    · intro nf mf h1 _; exact Option.noConfusion h1
    · split
      · simp [hmn]
      · simp [hnm2, hneq]
  · refine ⟨Or.inr trivial, ?_, ?_, ?_, ?_, ?_⟩
    · intro _ h2; exact Option.noConfusion h2
    · intro _ _; trivial
    · intro h1; exact Option.noConfusion h1
    · intro nf1 mf1 h1 _; exact Option.noConfusion h1
    · simp [hmn]
  · refine ⟨Or.inl trivial, ?_, ?_, ?_, ?_, ?_⟩
    · intro h1; exact Option.noConfusion h1
    · intro h1; exact Option.noConfusion h1
    · intro _ _; trivial
    · intro nf1 mf1 _ h2; exact Option.noConfusion h2
    · simp [hnm2, hneq]
  · refine ⟨?_, ?_, ?_, ?_, ?_, ?_⟩
    · split <;> simp
    · intro h1; exact Option.noConfusion h1
    · intro h1; exact Option.noConfusion h1
    · intro h1; exact Option.noConfusion h1
    · intro nf1 mf1 h1 h2
      injection h1 with h1e
      injection h2 with h2e
      rw [h1e, h2e]
    · split
      · simp [hmn]
      · simp [hnm2, hneq]

/-- C4 counterexample: landmark index 17 lies in `{11..32}` but is not one
of the selected indices — the gating selects only the 16 indices of
`POSE_SELECTED_INDICES`, not all of `{11..32}`. -/
theorem pose_selected_indices_not_full_range :
    (11 ≤ 17 ∧ 17 ≤ 32) ∧
      ∀ k : Fin 16, POSE_SELECTED_INDICES k ≠ (17 : Fin 33) := by
  refine ⟨by norm_num, ?_⟩
  decide

/-- A trivial SVD oracle used only to instantiate witnesses. -/
def trivialSvd : SvdFun := fun _ => (1, fun _ => 0, 1)

/-- The all-zero pose packet. -/
def zeroPacket : PosePacket := ⟨fun _ _ => 0, fun _ => 0, fun _ => 0⟩

/-- C4 (amended): the gating selects exactly the 16 landmark indices
`{11,12,13,14,15,16,23,...,32}`, and when fewer than 6 of them have
combined weight at least the 0.5 confidence threshold, `_score_single`
returns `final = none`, `reliable = false` with reason
"Too few reliable joints.". -/
theorem score_single_gate (svd : SvdFun) (ref cur : PosePacket)
    (h : matched_joints_count defaultConfig ref cur < 6) :
    score_single svd defaultConfig ref cur =
      ⟨none, none, none, none, none, none,
        matched_joints_count defaultConfig ref cur, 0, 0, false, false,
        "Too few reliable joints.", []⟩ ∧
    (List.finRange 16).map POSE_SELECTED_INDICES =
      [11, 12, 13, 14, 15, 16, 23, 24, 25, 26, 27, 28, 29, 30, 31, 32] := by
  constructor
  · simp only [score_single]
    split
    · rfl
    · next h2 => exact absurd h h2
  · decide

lemma zeroPacket_no_valid :
    valid_selected defaultConfig zeroPacket zeroPacket = [] := by
  rw [valid_selected, List.filter_eq_nil_iff]
  intro k _
  simp only [joint_weights, zeroPacket, clip01, defaultConfig,
    decide_eq_true_eq]
  norm_num

/-- C4 witness: the all-zero packet has no reliable joints, so the gate
fires. -/
theorem score_single_gate_witness :
    score_single trivialSvd defaultConfig zeroPacket zeroPacket =
      ⟨none, none, none, none, none, none,
        matched_joints_count defaultConfig zeroPacket zeroPacket, 0, 0,
        false, false, "Too few reliable joints.", []⟩ ∧
    (List.finRange 16).map POSE_SELECTED_INDICES =
      [11, 12, 13, 14, 15, 16, 23, 24, 25, 26, 27, 28, 29, 30, 31, 32] :=
  score_single_gate trivialSvd zeroPacket zeroPacket
    (by rw [matched_joints_count, zeroPacket_no_valid]; norm_num)

/-- Inbound commands as they affect the session state: a validated
`start_session` (reference image decoded and pose detected) replaces the
session with fresh empty buffers; `stop_session` clears it; every other
command (`hello`, `ping`, `client_frame`, unknown, or a failed
`start_session`) leaves it unchanged. -/
inductive SessionCmd where
  | startOk
  | stop
  | other

/-- The append-only buffers of `ActiveSession`, plus a ghost counter of the
loop iterations executed since the session started. -/
structure SessionBuffers where
  frames_base64_seq : List String
  poses_seq : List (Option PosePacket)
  ts_ms_seq : List ℤ
  ticks : ℕ

/-- The fresh buffers created by `_start_session`. -/
def emptyBuffers : SessionBuffers := ⟨[], [], [], 0⟩

/-- Effect of one inbound command on the session state. -/
def applyCmd : Option SessionBuffers → SessionCmd → Option SessionBuffers
  | _, .startOk => some emptyBuffers
  | _, .stop => none
  | s, .other => s

/-- The external inputs consumed by one iteration of `ClientSession.run`:
the two non-blocking command drains, the encoded frame, the detected pose,
the wall-clock timestamp, and whether the deadline has passed. -/
structure TickInput where
  cmds1 : List SessionCmd
  frame_b64 : String
  pose : Option PosePacket
  wall_ms : ℤ
  cmds2 : List SessionCmd
  deadline_reached : Bool

/-- One iteration of the `ClientSession.run` loop: drain commands, append
the frame/pose/timestamp triple when a session is active, drain commands
again, then finish (clearing the session) once the deadline passed. -/
def session_tick (s : Option SessionBuffers) (inp : TickInput) :
    Option SessionBuffers :=
  let s1 := inp.cmds1.foldl applyCmd s
  let s2 :=
    match s1 with
    | none => none
    | some b =>
      some { b with
        frames_base64_seq := b.frames_base64_seq ++ [inp.frame_b64],
        poses_seq := b.poses_seq ++ [inp.pose],
        ts_ms_seq := b.ts_ms_seq ++ [inp.wall_ms],
        ticks := b.ticks + 1 }
  let s3 := inp.cmds2.foldl applyCmd s2
  if inp.deadline_reached then none else s3

/-- The session loop over a sequence of tick inputs. -/
def session_run (s : Option SessionBuffers) (inputs : List TickInput) :
    Option SessionBuffers :=
  inputs.foldl session_tick s

/-- The buffer-length invariant: while a session is active, the three
buffers share one length, equal to the loop iterations since the start. -/
def buffers_consistent : Option SessionBuffers → Prop
  | none => True
  | some b =>
    b.frames_base64_seq.length = b.ticks ∧
    b.poses_seq.length = b.ticks ∧
    b.ts_ms_seq.length = b.ticks

lemma applyCmd_consistent (s : Option SessionBuffers) (c : SessionCmd)
    (h : buffers_consistent s) : buffers_consistent (applyCmd s c) := by
  cases c
  · simp [applyCmd, emptyBuffers, buffers_consistent]
  · simp [applyCmd, buffers_consistent]
  · simpa [applyCmd]

lemma foldl_applyCmd_consistent (cmds : List SessionCmd) :
    ∀ (s : Option SessionBuffers), buffers_consistent s →
      buffers_consistent (cmds.foldl applyCmd s) := by
  induction cmds with
  | nil => intro s h; simpa
  | cons c rest ih =>
    intro s h
    exact ih (applyCmd s c) (applyCmd_consistent s c h)

lemma session_tick_consistent (s : Option SessionBuffers) (inp : TickInput)
    (h : buffers_consistent s) : buffers_consistent (session_tick s inp) := by
  unfold session_tick
  split
  · simp [buffers_consistent]
  · apply foldl_applyCmd_consistent
    have h1 := foldl_applyCmd_consistent inp.cmds1 s h
    rcases hs1 : inp.cmds1.foldl applyCmd s with _ | b
    · simp [hs1, buffers_consistent]
    · rw [hs1] at h1
      obtain ⟨e1, e2, e3⟩ := h1
      simp [hs1, buffers_consistent, e1, e2, e3]

/-- C7: after every tick of the session loop (from any consistent state,
over any sequence of tick inputs), the three session buffers have equal
length, and that length equals the number of loop iterations executed since
the session started (the ghost counter `ticks`). -/
theorem session_buffer_invariant (s : Option SessionBuffers)
    (inputs : List TickInput) (h : buffers_consistent s) :
    buffers_consistent (session_run s inputs) := by
  induction inputs generalizing s with
  | nil => simpa [session_run]
  | cons i rest ih =>
    have h1 := session_tick_consistent s i h
    simpa [session_run, List.foldl_cons] using ih (session_tick s i) h1

/-- C7 witness: a concrete three-tick run (start, capture, capture). -/
theorem session_buffer_invariant_witness :
    buffers_consistent (session_run none
      [⟨[SessionCmd.startOk], "f0", none, 100, [], false⟩,
       ⟨[], "f1", some zeroPacket, 200, [], false⟩,
       ⟨[SessionCmd.other], "f2", none, 300, [], false⟩]) :=
  session_buffer_invariant none _ trivial

lemma getD_range_map {α : Type} (f : ℕ → α) (n i : ℕ) (d : α) :
    ((List.range n).map f).getD i d = if i < n then f i else d := by
  rw [List.getD_eq_getElem?_getD, List.getElem?_map]
  by_cases h : i < n
  · rw [List.getElem?_range h, if_pos h]
    rfl
  · rw [List.getElem?_eq_none (by simpa using Nat.le_of_not_lt h), if_neg h]
    rfl

lemma compute_motion_energy_eq_claim (poses : List (Option PosePacket))
    (conf : ℝ) (i : ℕ) :
    (compute_motion_energy poses conf).getD i none =
      motion_energy_claim poses conf i := by
  rw [compute_motion_energy, getD_range_map, motion_energy_claim]
  by_cases h : i < poses.length
  · rw [if_pos h]
    by_cases h0 : i = 0
    · simp [h0]
    · rw [if_neg h0, if_neg h0]
      rcases hprev : poses.getD (i - 1) none with _ | p
      · rfl
      rcases hcur : poses.getD i none with _ | q
      · rfl
      have hsel : SELECTED_CLAIM = (List.finRange 16).map POSE_SELECTED_INDICES := by
        decide
      have hfil : SELECTED_CLAIM.filter
            (fun j => decide (conf ≤ pair_weight p q j)) =
          ((List.finRange 16).filter (fun k => decide (conf ≤
            pair_weight p q (POSE_SELECTED_INDICES k)))).map
            POSE_SELECTED_INDICES := by
        rw [hsel, List.filter_map]
        rfl
      simp only [hfil, List.length_map, List.map_map]
      rfl
  · rw [if_neg h]
    have hnone : poses.getD i none = none := by
      rw [List.getD_eq_getElem?_getD,
        List.getElem?_eq_none (Nat.le_of_not_lt h)]
      rfl
    by_cases h0 : i = 0
    · simp [h0]
    · rw [if_neg h0, hnone]
      rcases poses.getD (i - 1) none with _ | p <;> rfl

/-- C3 (amended): the motion-energy array handed to the segment selector is
computed from the RTS-smoothed buffered sequence (not the raw one); at each
index it equals the claim's formula — for `i ≥ 1` with both adjacent
(smoothed) packets present, the mean Euclidean delta over the selected
joints whose combined weight meets the confidence threshold, requiring at
least 6 such joints, and NaN (`none`) otherwise. -/
theorem postprocess_vel_from_smoothed (poses : List (Option PosePacket))
    (fps : ℕ) (conf : ℝ) (i : ℕ) :
    (postprocess_vel poses fps conf).getD i none =
      motion_energy_claim
        (stabilize_pose_sequence_rts poses (max 1 fps) conf 1e-4 3
          (max 2 (max fps 1 / 2))) conf i :=
  compute_motion_energy_eq_claim _ conf i

lemma rts_step_zero_innovation (dt : ℝ) (cur next : KRecord)
    (xs : Vec2) (ps : Mat2) (h : xs = next.xp) :
    (rts_step dt cur next xs ps).1 = cur.xf := by
  simp only [rts_step]
  split
  · rfl
  · simp [h]

lemma kalman_pair_const (v dt r_base accel_var min_w : ℝ) (reset_gap : ℕ)
    (hw : min_w ≤ 1) :
    kalman_rts_smooth_1d [some v, some v] [1, 1] dt r_base accel_var min_w
      reset_gap = [some v, some v] := by
  have hne : ¬ (([some v, some v] : List (Option ℝ)).length = 0) := by simp
  have hfv : first_valid_idx [some v, some v] [1, 1] min_w = some 0 := by
    unfold first_valid_idx
    rw [show ([some v, some v] : List (Option ℝ)).length = 2 from rfl]
    rw [show List.range 2 = [0, 1] from rfl]
    refine List.find?_cons_of_pos _ ?_
    show ((some v).isSome && decide (min_w ≤ (1 : ℝ))) = true
    simp only [Option.isSome_some, Bool.true_and, decide_eq_true_eq]
    exact hw
  simp only [kalman_rts_smooth_1d, if_neg hne, hfv]
  rw [show ((([some v, some v] : List (Option ℝ)).getD 0 none).getD 0 : ℝ) = v
    from rfl]
  rw [show ([some v, some v] : List (Option ℝ)).zip ([1, 1] : List ℝ) =
    List.replicate 2 ((some v : Option ℝ), (1 : ℝ)) from rfl]
  obtain ⟨h1, h2, h3, h4⟩ :=
    kalman_forward_aux_const dt r_base accel_var min_w reset_gap v hw 2
      ⟨⟨v, 0⟩, id2, 0⟩ true rfl
  obtain ⟨recs, stf, hs⟩ :
      ∃ r s, kalman_forward_aux dt r_base accel_var min_w reset_gap
        ⟨⟨v, 0⟩, id2, 0⟩ true
        (List.replicate 2 ((some v : Option ℝ), (1 : ℝ))) = (r, s) :=
    ⟨_, _, rfl⟩
  rw [hs] at h3 h4 ⊢
  dsimp only at h3 h4 ⊢
  match recs, h3 with
  | [r0, r1], _ =>
    have hr0 := h4 r0 (by simp)
    have hr1 := h4 r1 (by simp)
    have hstep := rts_step_zero_innovation dt r0 r1 r1.xf r1.pf
      (by rw [hr1.2, hr1.1])
    simp only [rts_smooth, rts_smooth_aux, List.map]
    rw [hstep, hr0.2, hr1.2]

lemma rts_step_c3 (r0 r1 : KRecord) (ps : Mat2)
    (h1 : r0.xf = ⟨0, 0⟩) (h2 : r0.pf = ⟨1/10001, 0, 0, 1⟩)
    (h3 : r1.pp = ⟨70011/40004, 5/2, 5/2, 4⟩) (h4 : r1.xp = ⟨0, 0⟩) :
    (rts_step 1 r0 r1 ⟨175027500/175037501, 250025000/175037501⟩ ps).1.p =
      10000/175037501 := by
  rw [rts_step, h1, h2, h3, h4]
  rw [if_neg (by norm_num [abs])]
  norm_num [mulM, transM]

lemma kalman_pair_step :
    kalman_rts_smooth_1d [some 0, some 1] [1, 1] 1 1e-4 3 (1/2) 2 =
      [some (10000/175037501 : ℝ), some (175027500/175037501 : ℝ)] := by
  have hne : ¬ (([some (0:ℝ), some 1] : List (Option ℝ)).length = 0) := by simp
  have hfv : first_valid_idx [some 0, some 1] [1, 1] (1/2) = some 0 := by
    unfold first_valid_idx
    rw [show ([some (0:ℝ), some 1] : List (Option ℝ)).length = 2 from rfl]
    rw [show List.range 2 = [0, 1] from rfl]
    refine List.find?_cons_of_pos _ ?_
    show ((some (0:ℝ)).isSome && decide ((1/2 : ℝ) ≤ (1 : ℝ))) = true
    simp only [Option.isSome_some, Bool.true_and, decide_eq_true_eq]
    norm_num
  simp only [kalman_rts_smooth_1d, if_neg hne, hfv]
  rw [show ((([some (0:ℝ), some 1] : List (Option ℝ)).getD 0 none).getD 0 : ℝ)
    = 0 from rfl]
  rw [show ([some (0:ℝ), some 1] : List (Option ℝ)).zip ([1, 1] : List ℝ) =
    [((some (0:ℝ)), (1:ℝ)), (some 1, 1)] from rfl]
  have e0 : kalman_forward_step 1 1e-4 3 (1/2) 2 true ⟨⟨0, 0⟩, id2, 0⟩
      (some 0) 1 =
      (⟨⟨0, 0⟩, id2, ⟨0, 0⟩, ⟨1/10001, 0, 0, 1⟩⟩,
       ⟨⟨0, 0⟩, ⟨1/10001, 0, 0, 1⟩, 0⟩) := by
    norm_num [kalman_forward_step, fVec, fMat, qMat, addM, id2, Prod.ext_iff,
      KRecord.mk.injEq, KState.mk.injEq, Vec2.mk.injEq, Mat2.mk.injEq]
  obtain ⟨rec1, st1, hstep1⟩ :
      ∃ r s, kalman_forward_step 1 1e-4 3 (1/2) 2 false
        ⟨⟨0, 0⟩, ⟨1/10001, 0, 0, 1⟩, 0⟩ (some 1) 1 = (r, s) := ⟨_, _, rfl⟩
  have e1 : rec1.xp = ⟨0, 0⟩ ∧ rec1.pp = ⟨70011/40004, 5/2, 5/2, 4⟩ ∧
      rec1.xf = ⟨175027500/175037501, 250025000/175037501⟩ := by
    rw [show rec1 = (kalman_forward_step 1 1e-4 3 (1/2) 2 false
      ⟨⟨0, 0⟩, ⟨1/10001, 0, 0, 1⟩, 0⟩ (some 1) 1).1 from by rw [hstep1]]
    norm_num [kalman_forward_step, fVec, fMat, qMat, addM, id2,
      KRecord.mk.injEq, Vec2.mk.injEq, Mat2.mk.injEq]
  rw [kalman_forward_aux_cons, e0]
  dsimp only
  rw [kalman_forward_aux_cons, hstep1]
  dsimp only
  rw [show kalman_forward_aux 1 1e-4 3 (1/2) 2 st1 false [] = ([], st1)
    from rfl]
  simp only [rts_smooth, rts_smooth_aux, List.map]
  have hrts := rts_step_c3 ⟨⟨0, 0⟩, id2, ⟨0, 0⟩, ⟨1/10001, 0, 0, 1⟩⟩ rec1
    rec1.pf rfl rfl e1.2.1 e1.1
  rw [e1.2.2, hrts]

lemma center_and_scale_eq_self (P : Points33)
    (h23 : ∀ a, P 23 a = (if a = 0 then (1/2 : ℝ) else 0))
    (h24 : ∀ a, P 24 a = (if a = 0 then -(1/2 : ℝ) else 0))
    (h11 : ∀ a, P 11 a = (if a = 0 then (1/2 : ℝ) else if a = 1 then 1 else 0))
    (h12 : ∀ a, P 12 a = (if a = 0 then -(1/2 : ℝ) else if a = 1 then 1 else 0)) :
    center_and_scale P = P := by
  have hhip : ∀ b : Fin 3, (P 23 b + P 24 b) / 2 = 0 := by
    intro b
    rw [h23, h24]
    fin_cases b <;> norm_num [Fin.ext_iff]
  have htor : norm3 (fun b : Fin 3 =>
      (P 11 b + P 12 b) / 2 - (P 23 b + P 24 b) / 2) = 1 := by
    have hfun : (fun b : Fin 3 => (P 11 b + P 12 b) / 2 - (P 23 b + P 24 b) / 2)
        = (fun b : Fin 3 => if b = 1 then (1 : ℝ) else 0) := by
      funext b
      rw [h11, h12, h23, h24]
      fin_cases b <;> norm_num [Fin.ext_iff]
    rw [hfun, norm3]
    norm_num [Fin.ext_iff, Real.sqrt_one]
  funext j a
  simp only [center_and_scale, htor]
  rw [if_neg (by norm_num), if_neg (by norm_num), hhip, sub_zero, div_one]

/-- Counterexample skeleton, frame 0: unit torso (hips at `(±1/2,0,0)`,
shoulders at `(±1/2,1,0)`), all other joints at the origin. -/
def p0pts : Points33 := fun j a =>
  if j = 11 then (if a = 0 then 1/2 else if a = 1 then 1 else 0)
  else if j = 12 then (if a = 0 then -(1/2) else if a = 1 then 1 else 0)
  else if j = 23 then (if a = 0 then 1/2 else 0)
  else if j = 24 then (if a = 0 then -(1/2) else 0)
  else 0

/-- Counterexample skeleton, frame 1: the left wrist moves to `x = 1`. -/
def p1pts : Points33 := fun j a => if j = 15 ∧ a = 0 then 1 else p0pts j a

/-- All-ones confidence array. -/
def onesArr : Arr33 := fun _ => 1

/-- The two fully confident counterexample packets. -/
def cpk0 : PosePacket := ⟨p0pts, onesArr, onesArr⟩

def cpk1 : PosePacket := ⟨p1pts, onesArr, onesArr⟩

/-- The two-frame counterexample buffer. -/
def c3_poses : List (Option PosePacket) := [some cpk0, some cpk1]

/-- The smoothed frame-0 points (the wrist x coordinate is pulled by the
RTS backward pass). -/
def a0pts : Points33 :=
  fun j a => if j = 15 ∧ a = 0 then (10000/175037501 : ℝ) else p0pts j a

/-- The smoothed frame-1 points. -/
def a1pts : Points33 :=
  fun j a => if j = 15 ∧ a = 0 then (175027500/175037501 : ℝ) else p0pts j a

lemma c3_conf_traj (j : Fin 33) : conf_traj c3_poses j = [1, 1] := by
  simp only [conf_traj, c3_poses, cpk0, cpk1, onesArr, List.map, clip01]
  norm_num

lemma c3_smoothed_points_eq (t : ℕ) (ht : t < 2) (target : Points33)
    (htgt : ∀ (j : Fin 33) (a : Fin 3), ¬ (j = 15 ∧ a = 0) →
      target j a = p0pts j a)
    (h15 : ((kalman_rts_smooth_1d [some 0, some 1] [1, 1] 1 1e-4 3 (1/2)
      2).getD t none).getD 0 = target 15 0) :
    (fun j a => ((kalman_rts_smooth_1d (z_traj c3_poses j a)
        (conf_traj c3_poses j) (1 / max ((1 : ℕ) : ℝ) 1) 1e-4 3 (1/2)
        2).getD t none).getD 0) = target := by
  funext j a
  rw [c3_conf_traj]
  rw [show (1 : ℝ) / max ((1 : ℕ) : ℝ) 1 = 1 by norm_num]
  by_cases hja : j = 15 ∧ a = 0
  · obtain ⟨hj, ha⟩ := hja
    subst hj
    subst ha
    rw [show z_traj c3_poses 15 0 = [some 0, some 1] from rfl]
    exact h15
  · have hz : z_traj c3_poses j a = [some (p0pts j a), some (p0pts j a)] := by
      rw [show z_traj c3_poses j a = [some (p0pts j a), some (p1pts j a)]
        from rfl]
      rw [show p1pts j a = p0pts j a from by rw [p1pts, if_neg hja]]
    rw [hz, kalman_pair_const (p0pts j a) 1 1e-4 3 (1/2) 2 (by norm_num),
      htgt j a hja]
    match t, ht with
    | 0, _ => rfl
    | 1, _ => rfl

lemma c3_stab_getD0 :
    (stabilize_pose_sequence_rts c3_poses 1 (1/2) 1e-4 3 2).getD 0 none =
      some ⟨a0pts, onesArr, onesArr⟩ := by
  simp only [stabilize_pose_sequence_rts]
  rw [getD_range_map]
  rw [if_pos (by norm_num [c3_poses])]
  rw [show c3_poses.getD 0 none = some cpk0 from rfl]
  simp only
  refine congrArg some ?_
  have hpts := c3_smoothed_points_eq 0 (by norm_num) a0pts
    (fun j a hja => by simp only [a0pts, if_neg hja])
    (by rw [kalman_pair_step]; rfl)
  rw [hpts]
  rfl

lemma c3_stab_getD1 :
    (stabilize_pose_sequence_rts c3_poses 1 (1/2) 1e-4 3 2).getD 1 none =
      some ⟨a1pts, onesArr, onesArr⟩ := by
  simp only [stabilize_pose_sequence_rts]
  rw [getD_range_map]
  rw [if_pos (by norm_num [c3_poses])]
  rw [show c3_poses.getD 1 none = some cpk1 from rfl]
  simp only
  refine congrArg some ?_
  have hpts := c3_smoothed_points_eq 1 (by norm_num) a1pts
    (fun j a hja => by simp only [a1pts, if_neg hja])
    (by rw [kalman_pair_step]; rfl)
  rw [hpts]
  rfl

lemma motion_energy_claim_eval (poses : List (Option PosePacket))
    (P Q : Points33) (d : ℝ) (hd : 0 ≤ d)
    (hg0 : poses.getD 0 none = some ⟨P, onesArr, onesArr⟩)
    (hg1 : poses.getD 1 none = some ⟨Q, onesArr, onesArr⟩)
    (hcsP : center_and_scale P = P) (hcsQ : center_and_scale Q = Q)
    (hdiff : ∀ (j : Fin 33), ¬ j = 15 → ∀ c, Q j c - P j c = 0)
    (h15 : ∀ c : Fin 3, Q 15 c - P 15 c = if c = 0 then d else 0) :
    motion_energy_claim poses (1/2) 1 = some (d / 16) := by
  have hterm : ∀ j : Fin 33, ¬ j = 15 →
      norm3 (fun c => Q j c - P j c) = 0 := by
    intro j hj
    have hz : (fun c : Fin 3 => Q j c - P j c) = fun _ => 0 :=
      funext (hdiff j hj)
    rw [hz, norm3]
    norm_num
  have hterm15 : norm3 (fun c => Q 15 c - P 15 c) = d := by
    have hz : (fun c : Fin 3 => Q 15 c - P 15 c) =
        fun c => if c = 0 then d else 0 := funext h15
    rw [hz, norm3]
    simp only [Fin.isValue, show ((0 : Fin 3) = 0) = True by simp,
      show ((1 : Fin 3) = 0) = False by simp [Fin.ext_iff],
      show ((2 : Fin 3) = 0) = False by simp [Fin.ext_iff],
      if_true, if_false]
    rw [show d ^ 2 + 0 ^ 2 + 0 ^ 2 = d ^ 2 by ring, Real.sqrt_sq hd]
  have hpw : ∀ j : Fin 33,
      pair_weight ⟨P, onesArr, onesArr⟩ ⟨Q, onesArr, onesArr⟩ j = 1 := by
    intro j
    norm_num [pair_weight, onesArr, clip01]
  have hfil : SELECTED_CLAIM.filter (fun j => decide ((1:ℝ)/2 ≤
      pair_weight ⟨P, onesArr, onesArr⟩ ⟨Q, onesArr, onesArr⟩ j)) =
      SELECTED_CLAIM := by
    rw [List.filter_eq_self]
    intro j _
    rw [hpw]
    norm_num
  rw [motion_energy_claim]
  rw [if_neg (by norm_num)]
  rw [show (1 : ℕ) - 1 = 0 from rfl, hg0, hg1]
  simp only [hfil]
  rw [if_neg (by decide)]
  simp only [hcsP, hcsQ]
  simp only [SELECTED_CLAIM, List.map_cons, List.map_nil, List.sum_cons,
    List.sum_nil, List.length_cons, List.length_nil]
  rw [hterm 11 (by decide), hterm 12 (by decide), hterm 13 (by decide),
    hterm 14 (by decide), hterm15, hterm 16 (by decide),
    hterm 23 (by decide), hterm 24 (by decide), hterm 25 (by decide),
    hterm 26 (by decide), hterm 27 (by decide), hterm 28 (by decide),
    hterm 29 (by decide), hterm 30 (by decide), hterm 31 (by decide),
    hterm 32 (by decide)]
  norm_num

lemma cs_p0 : center_and_scale p0pts = p0pts := by
  refine center_and_scale_eq_self p0pts ?_ ?_ ?_ ?_ <;> intro a <;>
    simp +decide only [p0pts, if_true, if_false, false_and]

lemma cs_p1 : center_and_scale p1pts = p1pts := by
  refine center_and_scale_eq_self p1pts ?_ ?_ ?_ ?_ <;> intro a <;>
    simp +decide only [p1pts, p0pts, if_true, if_false, false_and]

lemma cs_a0 : center_and_scale a0pts = a0pts := by
  refine center_and_scale_eq_self a0pts ?_ ?_ ?_ ?_ <;> intro a <;>
    simp +decide only [a0pts, p0pts, if_true, if_false, false_and]

lemma cs_a1 : center_and_scale a1pts = a1pts := by
  refine center_and_scale_eq_self a1pts ?_ ?_ ?_ ?_ <;> intro a <;>
    simp +decide only [a1pts, p0pts, if_true, if_false, false_and]

lemma c3_me_raw : motion_energy_claim c3_poses (1/2) 1 = some ((1 : ℝ) / 16) := by
  refine motion_energy_claim_eval c3_poses p0pts p1pts 1 (by norm_num)
    rfl rfl cs_p0 cs_p1 ?_ ?_
  · intro j hj c
    rw [p1pts, if_neg (fun h => hj h.1)]
    ring
  · intro c
    by_cases hc : c = 0
    · subst hc
      rw [if_pos rfl, show p1pts 15 0 = 1 from rfl,
        show p0pts 15 0 = 0 from by
          simp +decide only [p0pts, if_true, if_false, false_and]]
      ring
    · rw [if_neg hc, p1pts, if_neg (fun h => hc h.2)]
      ring

lemma c3_me_smoothed :
    motion_energy_claim (stabilize_pose_sequence_rts c3_poses 1 (1/2) 1e-4 3 2)
      (1/2) 1 = some ((175017500/175037501 : ℝ) / 16) := by
  refine motion_energy_claim_eval _ a0pts a1pts (175017500/175037501)
    (by norm_num) c3_stab_getD0 c3_stab_getD1 cs_a0 cs_a1 ?_ ?_
  · intro j hj c
    rw [a1pts, a0pts, if_neg (fun h => hj h.1), if_neg (fun h => hj h.1)]
    ring
  · intro c
    by_cases hc : c = 0
    · subst hc
      rw [if_pos rfl, a1pts, a0pts, if_pos ⟨rfl, rfl⟩, if_pos ⟨rfl, rfl⟩]
      norm_num
    · rw [if_neg hc, a1pts, a0pts, if_neg (fun h => hc h.2),
        if_neg (fun h => hc h.2)]
      ring

/-- C3 counterexample: on a concrete two-frame buffer (unit torso, only the
left wrist moving) the `vel` value handed to the segment selector at index 1
differs from the claim's motion energy computed on the *raw* buffered poses —
the code computes it on the RTS-smoothed sequence instead. -/
theorem postprocess_vel_not_from_raw :
    (postprocess_vel c3_poses 1 (1/2)).getD 1 none ≠
      motion_energy_claim c3_poses (1/2) 1 := by
  rw [postprocess_vel_from_smoothed c3_poses 1 (1/2) 1]
  rw [show stabilize_pose_sequence_rts c3_poses (max 1 1) (1/2) 1e-4 3
      (max 2 (max 1 1 / 2)) =
      stabilize_pose_sequence_rts c3_poses 1 (1/2) 1e-4 3 2 from rfl]
  rw [c3_me_smoothed, c3_me_raw]
  simp only [ne_eq, Option.some.injEq]
  norm_num

/-- C9 witness instance at `a = 30, b = 350`. -/
theorem wrapped_angle_diff_symm_range_witness :
    wrapped_angle_diff 30 350 = wrapped_angle_diff 350 30 ∧
    (0 ≤ wrapped_angle_diff 30 350 ∧ wrapped_angle_diff 30 350 ≤ 180) :=
  ⟨(wrapped_angle_diff_symm_range 30 350).1,
   (wrapped_angle_diff_symm_range 30 350).2 (by norm_num) (by norm_num)
     (by norm_num) (by norm_num)⟩

end StandHold

end
